import Mathlib

/-!
# Verification of the student-finance-tracker search/validation core

Shallow embedding of the repository's JavaScript modules:

* `src/scripts/search.js`  — `SearchManager` (pattern compilation, search,
  history, highlighting, HTML escaping);
* `src/scripts/state.js`   — `StateManager` (transaction CRUD, budget cap,
  statistics);
* `src/unnamed/part_001`   — `ValidationManager` (field grammars,
  `validateAmount`).

The JavaScript regex engine (`new RegExp`, `RegExp.test`, `String.replace`)
is external to the repository; it is modelled by explicit oracle parameters:
a compile function `String → String → Option R` (where `none` models a
thrown `SyntaxError`) and a test function `R → String → Bool`.  A global
`String.replace` with a wrapping callback is modelled by a *match
decomposition*: a list of (is-match, segment) pairs whose segments
concatenate back to the input, which is exactly the data a global
replace-with-callback consumes.

JS numbers are modelled as exact rationals (`ℚ`); for the amount grammar,
values are modelled in integer cents, which is exact for every string the
grammar admits (at most two fractional digits) and agrees with IEEE double
comparison against the bounds 0 and 1,000,000 used by the code.
Field values that may be `undefined`/non-strings are modelled with `Option`
or a dedicated sum type, since the code branches on `typeof`.
-/

/-- JS `String.prototype.trim` on a character list: strip leading and
trailing whitespace. -/
def jsTrimL (l : List Char) : List Char :=
  ((l.dropWhile Char.isWhitespace).reverse.dropWhile Char.isWhitespace).reverse

/-- JS `String.prototype.trim`. -/
def jsTrim (s : String) : String := String.mk (jsTrimL s.toList)

namespace SearchManager

/-- A search-history entry, `{pattern, flags, timestamp, displayPattern}`
(search.js lines 383-388). -/
structure HistEntry where
  pattern : String
  flags : String
  timestamp : String
  displayPattern : String
deriving DecidableEq, Repr

/-- The mutable fields of `SearchManager` that the verified operations touch
(search.js lines 3-7).  `maxHistorySize` is the constant 10. -/
structure SearchState where
  lastSearchPattern : String
  lastSearchFlags : String
  searchHistory : List HistEntry
deriving DecidableEq, Repr

/-- The freshly constructed manager (search.js constructor). -/
def initState : SearchState :=
  { lastSearchPattern := "", lastSearchFlags := "i", searchHistory := [] }

/-- `this.maxHistorySize` (search.js line 7). -/
def maxHistorySize : Nat := 10

/-- Index of the last `'/'` in a character list, i.e. JS
`String.prototype.lastIndexOf('/')` restricted to the found case
(`none` models the `-1` result). -/
def lastSlashPos : List Char → Option Nat
  | [] => none
  | c :: r =>
    match lastSlashPos r with
    | some i => some (i + 1)
    | none => if c = '/' then some 0 else none

/-- The pattern-cleaning step of `compileRegex` (search.js lines 77-88):
trim, then if the trimmed string is self-delimited (`startsWith('/')` and a
later `'/'` exists), take the substring strictly between the first and last
slash as the body and, when non-empty, the suffix after the last slash as a
flags override.  Works on the already-trimmed character list. -/
def cleanPFL (t : List Char) (flags : String) : List Char × String :=
  if t.head? = some '/' ∧ t.contains '/' then
    match lastSlashPos t with
    | some i =>
      if 0 < i then
        let pf := t.drop (i + 1)
        let body := (t.take i).drop 1
        (body, if pf ≠ [] then String.mk pf else flags)
      else (t, flags)
    | none => (t, flags)
  else (t, flags)

/-- `compileRegex`'s cleaning of `(pattern, flags)` as strings: JS
`pattern.trim()` followed by the self-delimited split (search.js lines
77-88). -/
def cleanPF (pattern flags : String) : String × String :=
  let r := cleanPFL (jsTrimL pattern.toList) flags
  (String.mk r.1, r.2)

/-- `SearchManager.compileRegex` (search.js lines 70-98).  `newRegExp`
models the external `new RegExp` constructor; `none` models a thrown
`SyntaxError`, which the method catches, returning `null`.  Note that the
method assigns `this.lastSearchPattern`/`this.lastSearchFlags` (lines
90-91) *before* invoking `new RegExp` (line 93), so those fields are
updated even when compilation fails; only the falsy/non-string early
return (lines 72-74) leaves the state untouched. -/
def compileRegex {R : Type} (newRegExp : String → String → Option R)
    (st : SearchState) (pattern : String) (flags : String) :
    SearchState × Option R :=
  if pattern = "" then (st, none)
  else
    let pf := cleanPF pattern flags
    let st' := { st with lastSearchPattern := pf.1, lastSearchFlags := pf.2 }
    (st', newRegExp pf.1 pf.2)

/-- The history entry built by `addToHistory` (search.js lines 383-388). -/
def mkEntry (now pattern flags : String) : HistEntry :=
  { pattern := pattern, flags := flags, timestamp := now,
    displayPattern :=
      if flags.toList.contains 'i' then "/" ++ pattern ++ "/i"
      else "/" ++ pattern ++ "/" }

/-- `SearchManager.addToHistory` (search.js lines 382-402): drop any entry
with the exact same `(pattern, flags)`, push the new entry at the front,
and truncate to `maxHistorySize` when the length exceeds it. -/
def addToHistory (now : String) (st : SearchState) (pattern flags : String) :
    SearchState :=
  let filtered := st.searchHistory.filter
    (fun e => ¬ (e.pattern = pattern ∧ e.flags = flags))
  let pushed := mkEntry now pattern flags :: filtered
  let limited := if maxHistorySize < pushed.length then pushed.take maxHistorySize else pushed
  { st with searchHistory := limited }

/-- A JS field value as seen by `testPattern`: either a string or anything
else (`undefined`, `null`, a number, …), which `typeof text !== 'string'`
sends to `false`. -/
inductive JsField where
  | str (s : String)
  | nonstr
deriving DecidableEq, Repr

/-- `SearchManager.testPattern` (search.js lines 106-119): non-string text
never matches; otherwise defer to the engine's `test` (the `lastIndex`
reset is implicit in a stateless oracle). -/
def testPattern {R : Type} (rtest : R → String → Bool) (r : R) :
    JsField → Bool
  | .str s => rtest r s
  | .nonstr => false

/-- A transaction as the search filter sees it (search.js lines 47-54).
`amount` is `some s` when the field is present with `toString()` rendering
`s`, and `none` when it is `undefined`/`null` — in which case
`transaction.amount.toString()` throws a `TypeError`. -/
structure STx where
  description : JsField
  category : JsField
  amount : Option String
  date : JsField
deriving DecidableEq, Repr

/-- The filter callback body (search.js lines 48-53), with JS `||`
short-circuit order: description, category, amount-as-text, date.  The
`Except.error` case models the `TypeError` thrown by
`transaction.amount.toString()` when `amount` is absent — reached only
when neither description nor category matched. -/
def matchTx {R : Type} (rtest : R → String → Bool) (r : R) (t : STx) :
    Except String Bool :=
  if testPattern rtest r t.description then .ok true
  else if testPattern rtest r t.category then .ok true
  else
    match t.amount with
    | none => .error "Cannot read properties of undefined"
    | some a => .ok (rtest r a || testPattern rtest r t.date)

/-- `transactions.filter(...)` (search.js line 47): JS `Array.filter`
evaluates the callback left to right and aborts at the first throw. -/
def filterTx {R : Type} (rtest : R → String → Bool) (r : R) :
    List STx → Except String (List STx)
  | [] => .ok []
  | t :: ts => do
    let b ← matchTx rtest r t
    let rest ← filterTx rtest r ts
    pure (if b then t :: rest else rest)

/-- `SearchManager.searchTransactions` (search.js lines 30-62).  Returns the
state after the call paired with either the filtered list or the
`Search failed: …` error that the method throws (the thrown `Error` is
modelled as `Except.error`).  Empty/blank patterns return the input
unchanged (line 31-33); a `null` from `compileRegex` becomes the thrown
`Invalid regex pattern` error (lines 39-41, 58-61) with the history
untouched; on successful compilation the query is recorded in history
(line 44) *before* filtering, so a `TypeError` thrown inside the filter
leaves the new history entry in place. -/
def searchTransactions {R : Type} (newRegExp : String → String → Option R)
    (rtest : R → String → Bool) (now : String) (st : SearchState)
    (transactions : List STx) (pattern : String) (caseInsensitive : Bool) :
    SearchState × Except String (List STx) :=
  if pattern = "" ∨ jsTrim pattern = "" then (st, .ok transactions)
  else
    let flags := if caseInsensitive then "gi" else "g"
    let cr := compileRegex newRegExp st pattern flags
    match cr.2 with
    | none => (cr.1, .error "Search failed: Invalid regex pattern")
    | some r =>
      let st2 := addToHistory now cr.1 pattern flags
      match filterTx rtest r transactions with
      | .ok res => (st2, .ok res)
      | .error e => (st2, .error ("Search failed: " ++ e))

/-- The apostrophe character (U+0027), written by code point. -/
def apos : Char := Char.ofNat 39

/-- `&#039;`, the escape `escapeHtml` substitutes for an apostrophe. -/
def aposEntity : List Char := '&' :: '#' :: '0' :: '3' :: '9' :: [';']

/-- One pass of JS `String.prototype.replace(/c/g, rep)` for a single
character `c`: every occurrence of `c` is replaced by `rep`. -/
def replChar (target : Char) (rep : List Char) (l : List Char) : List Char :=
  l.flatMap fun c => if c = target then rep else [c]

/-- The five chained global replaces of `SearchManager.escapeHtml`
(search.js lines 485-490), in source order: `&`, `<`, `>`, `"`, `'`. -/
def escapeChars (l : List Char) : List Char :=
  replChar apos aposEntity
    (replChar '"' "&quot;".toList
      (replChar '>' "&gt;".toList
        (replChar '<' "&lt;".toList
          (replChar '&' "&amp;".toList l))))

/-- `SearchManager.escapeHtml` (search.js lines 482-491): non-strings map to
the empty string, strings go through the five replaces. -/
def escapeHtml : JsField → String
  | .str s => String.mk (escapeChars s.toList)
  | .nonstr => ""

/-- A compiled global matcher's observable action in
`String.replace(regex, cb)`: a decomposition of the input into (is-match,
segment) pairs whose segments concatenate back to the input.  This is
exactly the data a global replace-with-callback consumes, so any JS regex
gives rise to one; `joins` is the soundness of the decomposition. -/
structure Matcher where
  decompose : List Char → List (Bool × List Char)
  joins : ∀ l, ((decompose l).map Prod.snd).flatten = l

/-- Rebuild the replaced string: matched segments are wrapped in
`<mark>…</mark>` (the callback at search.js lines 139-141), unmatched
segments pass through. -/
def wrapDecomp (d : List (Bool × List Char)) : List Char :=
  (d.map fun p =>
    if p.1 then "<mark>".toList ++ p.2 ++ "</mark>".toList else p.2).flatten

/-- `SearchManager.highlightMatches` (search.js lines 127-146): falsy or
non-string text, or a missing matcher, yields the escaped text; otherwise
the text is escaped first and the matcher's global replace wraps each match
in `<mark>` tags. -/
def highlightMatches (text : JsField) (m : Option Matcher) : String :=
  match m, text with
  | some mr, .str s =>
    if s = "" then escapeHtml text
    else String.mk (wrapDecomp (mr.decompose (escapeChars s.toList)))
  | _, _ => escapeHtml text

/-- What a single character becomes under the full escape chain. -/
def escChar (c : Char) : List Char :=
  if c = '&' then "&amp;".toList
  else if c = '<' then "&lt;".toList
  else if c = '>' then "&gt;".toList
  else if c = '"' then "&quot;".toList
  else if c = apos then aposEntity
  else [c]

/-- `c` is none of the four characters that could open or close markup or
break out of an attribute: `<`, `>`, `"`, `'`. -/
def tameChar (c : Char) : Bool :=
  !(c == '<' || c == '>' || c == '"' || c == apos)

/-- A structural reading of "only the deliberate `<mark>` wrapping is
unescaped": the output splits into pieces, each either a literal `<mark>`,
a literal `</mark>`, or a run of characters free of `<`, `>`, `"`, `'`. -/
inductive HPiece where
  | plain (seg : List Char)
  | openMark
  | closeMark

/-- Flatten a piece list back into text. -/
def renderPieces (ps : List HPiece) : List Char :=
  (ps.map fun p =>
    match p with
    | .plain seg => seg
    | .openMark => "<mark>".toList
    | .closeMark => "</mark>".toList).flatten

/-- The output is well-marked: some piece list renders to it and every plain
piece is free of `<`, `>`, `"`, `'`. -/
def WellMarked (out : List Char) : Prop :=
  ∃ ps : List HPiece,
    (∀ p ∈ ps, ∀ seg, p = HPiece.plain seg → seg.all tameChar = true) ∧
    out = renderPieces ps

/-- Every ampersand in `l` begins one of the five complete escape entities
(`&amp;` `&lt;` `&gt;` `&quot;` `&#039;`).  This is the sense in which a
source `&` is "escaped" in HTML output. -/
def ampEscaped : List Char → Bool
  | [] => true
  | '&' :: r =>
    (("amp;".toList == r.take 4) || ("lt;".toList == r.take 3) ||
     ("gt;".toList == r.take 3) || ("quot;".toList == r.take 5) ||
     ("#039;".toList == r.take 5)) && ampEscaped r
  | _ :: r => ampEscaped r

end SearchManager

namespace ValidationManager

/-- ASCII decimal digit. -/
def isDig (c : Char) : Bool := '0' ≤ c ∧ c ≤ '9'

/-- Nonzero ASCII decimal digit, `[1-9]`. -/
def isDig19 (c : Char) : Bool := '1' ≤ c ∧ c ≤ '9'

/-- `0*[1-9]\d*`: an all-digit string with at least one nonzero digit
(its leading zeros, then a `[1-9]`, then arbitrary digits). -/
def intPartOk (l : List Char) : Bool :=
  l.all isDig && !(l.dropWhile (· = '0')).isEmpty

/-- `\d{1,2}`: one or two digits. -/
def frac12 : List Char → Bool
  | [d] => isDig d
  | [d, e] => isDig d && isDig e
  | _ => false

/-- `[1-9]\d?|0[1-9]`: the fractional part of the zero-integer alternative,
at least one nonzero digit. -/
def fracZeroAlt : List Char → Bool
  | [d] => isDig19 d
  | [d, e] => (isDig19 d && isDig e) || (d = '0' && isDig19 e)
  | _ => false

/-- `ValidationManager.patterns.amount` (part_001 line 10), the anchored
regex `^(0*[1-9]\d*(\.\d{1,2})?|0+\.([1-9]\d?|0[1-9]))$`, as a decidable
recognizer on the character list. -/
def amountGrammarL (l : List Char) : Bool :=
  match l.splitOn '.' with
  | [ip] => intPartOk ip
  | [ip, fp] =>
    (intPartOk ip && frac12 fp) ||
    (!ip.isEmpty && ip.all (· = '0') && fracZeroAlt fp)
  | _ => false

/-- The amount regex on a string. -/
def amountGrammar (s : String) : Bool := amountGrammarL s.toList

/-- Digits to a natural number, most significant first. -/
def digitsToNat (l : List Char) : Nat :=
  l.foldl (fun acc c => acc * 10 + (c.toNat - '0'.toNat)) 0

/-- The numeric value of a grammar-shaped decimal string, in exact cents
(`parseFloat` is exact on at most two fractional digits at this scale; the
code's comparisons against `0` and `1,000,000` coincide with comparisons of
these cents against `0` and `100,000,000`). -/
def centsOfL (l : List Char) : Nat :=
  match l.splitOn '.' with
  | [ip] => digitsToNat ip * 100
  | [ip, fp] =>
    digitsToNat ip * 100 +
      (match fp with
       | [d] => (d.toNat - '0'.toNat) * 10
       | _ => digitsToNat fp)
  | _ => 0

/-- Cents value of a string. -/
def centsOf (s : String) : Nat := centsOfL s.toList

/-- The argument of `validateAmount` as JS sees it: a string, a number
(carried with its `toString()` rendering), `null`/`undefined`, or any other
non-string non-number value. -/
inductive AmountInput where
  | vstr (s : String)
  | vnum (s : String)
  | vnull
  | vother
deriving DecidableEq, Repr

/-- The outcomes of `validateAmount` (part_001 lines 139-170), one per
distinct error message of `errorMessages.amount` plus success with the
parsed value (modelled in cents). -/
inductive AmtResult where
  | ok (cents : Nat)
  | errRequired
  | errInvalid
  | errTooSmall
  | errTooLarge
deriving DecidableEq, Repr

/-- The string path shared by `validateAmount`'s string and number cases;
`isRawString` tells whether the original argument was the string itself
(in which case `''` is "required" — a number's rendering is never empty). -/
def validateAmountStr (s : String) (isRawString : Bool) : AmtResult :=
  if isRawString ∧ s = "" then .errRequired
  else if ¬ amountGrammar s then .errInvalid
  else if centsOf s = 0 then .errTooSmall
  else if 100000000 ≤ centsOf s then .errTooLarge
  else .ok (centsOf s)

/-- `ValidationManager.validateAmount` (part_001 lines 139-170):
`null`/`undefined`/`''` are "required"; non-string non-number values are
"invalid"; otherwise the rendering is matched against the amount regex
("invalid" on failure), then `parseFloat` bounds are applied: `<= 0` is
"too small" (`errorMessages.amount.tooSmall`), `>= 1,000,000` is
"too large", and anything else succeeds with the parsed value. -/
def validateAmount : AmountInput → AmtResult
  | .vnull => .errRequired
  | .vother => .errInvalid
  | .vstr s => validateAmountStr s true
  | .vnum s => validateAmountStr s false

/-- Whether a `validateAmount` outcome is a success. -/
def AmtResult.accepted : AmtResult → Bool
  | .ok _ => true
  | _ => false

end ValidationManager

namespace StateManager

/-- A stored transaction (state.js; the shape `validateTransaction` at
lines 467-491 checks).  Amounts are exact rationals standing for JS
numbers. -/
structure Tx where
  id : String
  description : String
  amount : ℚ
  category : String
  date : String
  createdAt : String
  updatedAt : String
deriving DecidableEq, Repr

/-- The `updates` object passed to `updateTransaction`: any subset of
fields may be present (spread semantics).  `id`, `createdAt` and
`updatedAt` may be supplied but are overridden by the method. -/
structure TxUpdates where
  id : Option String := none
  description : Option String := none
  amount : Option ℚ := none
  category : Option String := none
  date : Option String := none
  createdAt : Option String := none
  updatedAt : Option String := none
deriving DecidableEq, Repr

/-- The object spread `{...current, ...updates, id: current.id, createdAt:
current.createdAt, updatedAt: now}` (state.js lines 91-97). -/
def applyUpdates (now : String) (t : Tx) (u : TxUpdates) : Tx :=
  { id := t.id,
    description := u.description.getD t.description,
    amount := u.amount.getD t.amount,
    category := u.category.getD t.category,
    date := u.date.getD t.date,
    createdAt := t.createdAt,
    updatedAt := now }

/-- `StateManager.validateTransaction` (state.js lines 467-491) as a
boolean (`true` = no throw).  The `typeof` checks are discharged by the
typed model; `validDate` is the external `new Date` parse-validity oracle
used by `isValidDateString` (lines 498-501). -/
def validTx (validDate : String → Bool) (t : Tx) : Bool :=
  jsTrim t.id ≠ "" && jsTrim t.description ≠ "" && decide (0 ≤ t.amount) &&
    jsTrim t.category ≠ "" && validDate t.date

/-- The state fields of `StateManager` the verified operations touch
(state.js lines 3-16). -/
structure StateSt where
  transactions : List Tx
  categories : List String
  budgetCap : Option ℚ
deriving DecidableEq, Repr

/-- `StateManager.updateTransaction` (state.js lines 83-106): find the
first transaction with the given id (`findIndex`), merge the updates with
`id`/`createdAt` preserved and `updatedAt` refreshed, validate, and only
then write back.  Returns the state after the call and the boolean the
method returns; any caught error leaves the state unchanged. -/
def updateTransaction (validDate : String → Bool) (now : String)
    (st : StateSt) (tid : String) (u : TxUpdates) : StateSt × Bool :=
  match st.transactions.findIdx? (fun t => t.id = tid) with
  | none => (st, false)
  | some i =>
    match st.transactions[i]? with
    | none => (st, false)
    | some t =>
      let t' := applyUpdates now t u
      if validTx validDate t' then
        ({ st with transactions := st.transactions.set i t' }, true)
      else (st, false)

/-- `StateManager.getBudgetCap` (state.js lines 306-308). -/
def getBudgetCap (st : StateSt) : Option ℚ := st.budgetCap

/-- `StateManager.setBudgetCap` (state.js lines 314-322): a non-negative
number or `null` is stored, anything else throws. -/
def setBudgetCap (cap : Option ℚ) (st : StateSt) : Except String StateSt :=
  match cap with
  | some c =>
    if 0 ≤ c then .ok { st with budgetCap := some c }
    else .error "Budget cap must be a non-negative number or null"
  | none => .ok { st with budgetCap := none }

/-- JS truthiness of a (non-NaN) number: everything but `0`. -/
def truthyNum (q : ℚ) : Bool := q ≠ 0

/-- `StateManager.getSpendingForPeriod` (state.js lines 387-394):
sum the amounts of transactions whose parsed date lies in the inclusive
`[startT, endT]` instant range.  `parseDate` is the external `new Date`
conversion to an epoch instant. -/
def getSpendingForPeriod (parseDate : String → ℤ) (txs : List Tx)
    (startT endT : ℤ) : ℚ :=
  (txs.filter fun t => startT ≤ parseDate t.date ∧ parseDate t.date ≤ endT)
    |>.foldl (fun s t => s + t.amount) 0

/-- One row of the category breakdown (state.js lines 410-416). -/
structure CatRow where
  category : String
  amount : ℚ
  count : Nat
  average : ℚ
deriving DecidableEq, Repr

/-- Fold `categoryTotals`/`categoryCounts` (state.js lines 402-408) as an
insertion-ordered association list, as a JS object with string keys is. -/
def catFold (txs : List Tx) : List (String × ℚ × Nat) :=
  txs.foldl
    (fun acc t =>
      if acc.any (fun p => p.1 = t.category) then
        acc.map fun p =>
          if p.1 = t.category then (p.1, p.2.1 + t.amount, p.2.2 + 1) else p
      else acc ++ [(t.category, t.amount, 1)])
    []

/-- Descending insertion by amount — a stable sort, as V8's `Array.sort`
is (state.js line 417). -/
def insertDesc (r : CatRow) : List CatRow → List CatRow
  | [] => [r]
  | x :: xs => if x.amount < r.amount then r :: x :: xs else x :: insertDesc r xs

/-- `b.amount - a.amount` descending sort of the rows. -/
def sortRowsDesc (rows : List CatRow) : List CatRow :=
  rows.foldl (fun acc r => insertDesc r acc) []

/-- The value `getCategoryStatistics` returns (state.js lines 401-426),
with the `totals`/`counts` objects fused into one association list. -/
structure CatStats where
  entries : List (String × ℚ × Nat)
  sorted : List CatRow
  top : Option String
  topAmount : ℚ
deriving DecidableEq, Repr

/-- `StateManager.getCategoryStatistics` (state.js lines 401-426). -/
def getCategoryStatistics (txs : List Tx) : CatStats :=
  let entries := catFold txs
  let rows := entries.map fun p =>
    { category := p.1, amount := p.2.1, count := p.2.2,
      average := p.2.1 / (p.2.2 : ℚ) : CatRow }
  let sorted := sortRowsDesc rows
  { entries := entries, sorted := sorted,
    top := (sorted.head?).map (·.category),
    topAmount := ((sorted.head?).map (·.amount)).getD 0 }

/-- One month of `getMonthlyTrends` (state.js lines 447-454). -/
structure TrendRow where
  spending : ℚ
  transactionCount : Nat
  average : ℚ
deriving DecidableEq, Repr

/-- `StateManager.getMonthlyTrends` (state.js lines 433-458) given the 12
month windows `[monthStart, nextMonthStart)` already converted to instants
by the external Date arithmetic (the in-month filter is
`start ≤ d < next`). -/
def getMonthlyTrends (parseDate : String → ℤ) (txs : List Tx)
    (windows : List (ℤ × ℤ)) : List TrendRow :=
  windows.map fun w =>
    let inMonth := txs.filter fun t =>
      w.1 ≤ parseDate t.date ∧ parseDate t.date < w.2
    let spending := inMonth.foldl (fun s t => s + t.amount) 0
    { spending := spending, transactionCount := inMonth.length,
      average := if 0 < inMonth.length then spending / (inMonth.length : ℚ) else 0 }

/-- The `budget` summary object (state.js lines 371-376). -/
structure BudgetView where
  cap : ℚ
  spent : ℚ
  remaining : ℚ
  percentage : ℚ
deriving DecidableEq, Repr

/-- The statistics record `calculateStatistics` returns (state.js lines
357-377). -/
structure Stats where
  totalTransactions : Nat
  totalAmount : ℚ
  averageAmount : ℚ
  today : ℚ
  week : ℚ
  month : ℚ
  year : ℚ
  categories : CatStats
  trends : List TrendRow
  budget : Option BudgetView
deriving DecidableEq, Repr

/-- The external clock/calendar inputs of `calculateStatistics`: the
current instant and the period start instants the Date arithmetic at
state.js lines 341-344 produces, plus the 12 trend month windows. -/
structure Clock where
  nowT : ℤ
  todayT : ℤ
  weekAgoT : ℤ
  monthStartT : ℤ
  yearStartT : ℤ
  monthWindows : List (ℤ × ℤ)
deriving DecidableEq, Repr

/-- `StateManager.calculateStatistics` (state.js lines 331-378).  The
`budget` field is present exactly when `this.budgetCap` is truthy (line
371): a `0` cap, like `null`, yields `budget: null`. -/
def calculateStatistics (parseDate : String → ℤ) (ck : Clock)
    (optTxs : Option (List Tx)) (st : StateSt) : Stats :=
  let txs := optTxs.getD st.transactions
  let totalAmount := txs.foldl (fun s t => s + t.amount) 0
  let monthSpending := getSpendingForPeriod parseDate txs ck.monthStartT ck.nowT
  { totalTransactions := txs.length,
    totalAmount := totalAmount,
    averageAmount :=
      if 0 < txs.length then totalAmount / (txs.length : ℚ) else 0,
    today := getSpendingForPeriod parseDate txs ck.todayT ck.nowT,
    week := getSpendingForPeriod parseDate txs ck.weekAgoT ck.nowT,
    month := monthSpending,
    year := getSpendingForPeriod parseDate txs ck.yearStartT ck.nowT,
    categories := getCategoryStatistics txs,
    trends := getMonthlyTrends parseDate txs ck.monthWindows,
    budget :=
      match st.budgetCap with
      | some cap =>
        if truthyNum cap then
          some { cap := cap, spent := monthSpending,
                 remaining := max 0 (cap - monthSpending),
                 percentage := monthSpending / cap * 100 }
        else none
      | none => none }

end StateManager

/-! ## Witness environments

The JS regex engine is external, so witnesses instantiate the oracle
parameters with small concrete engines: a parenthesis-balance checker
standing in for `new RegExp`'s syntax check (it rejects the unterminated
group `"(abc"`), and a literal-substring engine standing in for `test`. -/

namespace SearchManager

/-- Balanced-parenthesis check (depth never negative, ends at zero) — the
aspect of regex syntax that rejects an unterminated group. -/
def parenBal : List Char → Nat → Bool
  | [], d => d == 0
  | c :: r, d =>
    if c = '(' then parenBal r (d + 1)
    else if c = ')' then decide (0 < d) && parenBal r (d - 1)
    else parenBal r d

/-- A concrete compile oracle: succeeds exactly on balanced-paren patterns
(so it fails on `"(abc"`, as `new RegExp` does). -/
def demoCompile (p : String) (_f : String) : Option Unit :=
  if parenBal p.toList 0 then some () else none

/-- A compile oracle that always succeeds. -/
def demoCompileOk (_p _f : String) : Option Unit := some ()

/-- A trivially never-matching test oracle. -/
def demoTest : Unit → String → Bool := fun _ _ => false

/-- `pat` is a prefix of `l`. -/
def startsWithL : List Char → List Char → Bool
  | [], _ => true
  | _ :: _, [] => false
  | a :: as, b :: bs => a == b && startsWithL as bs

/-- `pat` occurs as a contiguous substring of `l` — the action of a
literal-text regex. -/
def containsSub (pat : List Char) : List Char → Bool
  | [] => startsWithL pat []
  | l@(_ :: rest) => startsWithL pat l || containsSub pat rest

/-- A literal-text regex engine: compilation always succeeds and keeps the
pattern, testing is substring occurrence. -/
def litCompile (p : String) (_f : String) : Option (List Char) := some p.toList

/-- Substring test of the literal engine. -/
def litTest (r : List Char) (s : String) : Bool := containsSub r s.toList

/-- A history entry used by concrete witness states. -/
def w1Entry : HistEntry :=
  { pattern := "food", flags := "gi", timestamp := "2025-01-01T00:00:00Z",
    displayPattern := "/food/i" }

/-- A concrete manager state with one history entry. -/
def w1St : SearchState :=
  { lastSearchPattern := "food", lastSearchFlags := "gi",
    searchHistory := [w1Entry] }

/-- A concrete transaction for witness searches. -/
def w1Tx : STx :=
  { description := .str "Lunch at cafeteria", category := .str "Food",
    amount := some "12.5", date := .str "2025-01-01" }

/-- The piece list a wrapped decomposition renders: matched segments
become `openMark — plain — closeMark`, unmatched ones a single plain
piece. -/
def toPieces (d : List (Bool × List Char)) : List HPiece :=
  d.flatMap fun p =>
    if p.1 then [.openMark, .plain p.2, .closeMark] else [.plain p.2]

/-- The observable action of the JS regex `/amp/g` on the one input the
counterexample uses: on `"&amp;"` it matches the middle `amp`, anywhere
else (for this argument) it finds nothing. -/
def ampM : Matcher where
  decompose l :=
    if l = "&amp;".toList then
      [(false, ['&']), (true, "amp".toList), (false, [';'])]
    else [(false, l)]
  joins l := by
    dsimp only
    by_cases h : l = "&amp;".toList
    · rw [if_pos h, h]
      rfl
    · rw [if_neg h]
      simp

end SearchManager

namespace StateManager

/-- A date-validity oracle accepting everything. -/
def vdAll : String → Bool := fun _ => true

/-- A concrete stored transaction for witness states. -/
def txW : Tx :=
  { id := "a", description := "Lunch", amount := 5, category := "Food",
    date := "2025-01-01", createdAt := "T0", updatedAt := "T1" }

/-- A concrete working set with one transaction. -/
def stW : StateSt :=
  { transactions := [txW], categories := ["Food"], budgetCap := none }

/-- A concrete update that tries (and fails) to overwrite `id` and
`createdAt` while changing the description. -/
def uW : TxUpdates :=
  { id := some "ZZZ", createdAt := some "ZZZ", description := some "Dinner" }

end StateManager

namespace SearchManager

/-- `compileRegex` never touches the search history, whatever the engine
answers. -/
theorem compileRegex_searchHistory {R : Type}
    (nre : String → String → Option R) (st : SearchState) (p f : String) :
    ((compileRegex nre st p f).1).searchHistory = st.searchHistory := by
  unfold compileRegex
  split <;> rfl

/-- `addToHistory` leaves at most 10 entries from any starting state. -/
theorem addToHistory_length_le (now : String) (st : SearchState)
    (p f : String) :
    (addToHistory now st p f).searchHistory.length ≤ 10 := by
  simp only [addToHistory]
  split
  · simp [maxHistorySize]
  · next h => simpa [maxHistorySize] using Nat.le_of_not_lt h

end SearchManager

open SearchManager in
/-- C2: a query that is empty or whitespace-only makes `searchTransactions`
return the input list unchanged, in the same order, with the whole manager
state (history included) untouched. -/
theorem searchTransactions_blank_query {R : Type}
    (nre : String → String → Option R) (rt : R → String → Bool)
    (now : String) (st : SearchState) (txs : List STx) (pattern : String)
    (ci : Bool) (h : jsTrim pattern = "") :
    searchTransactions nre rt now st txs pattern ci = (st, .ok txs) := by
  unfold searchTransactions
  rw [if_pos (Or.inr h)]

open SearchManager in
/-- Witness for C2 at the whitespace query `"   "` on a one-element list. -/
theorem searchTransactions_blank_query_witness :
    searchTransactions demoCompile demoTest "2025-02-02T00:00:00Z" w1St
      [w1Tx] "   " true = (w1St, .ok [w1Tx]) :=
  searchTransactions_blank_query demoCompile demoTest _ _ _ _ _ (by decide)

open SearchManager in
/-- C1: when the (non-blank) query's compilation fails, the search returns
the thrown `Search failed` error — a value distinguishable from any
`.ok` match list, empty included — and the search history is exactly what
it was before the call. -/
theorem searchTransactions_compile_failure {R : Type}
    (nre : String → String → Option R) (rt : R → String → Bool)
    (now : String) (st : SearchState) (txs : List STx) (pattern : String)
    (ci : Bool) (hne : jsTrim pattern ≠ "")
    (hfail : nre (cleanPF pattern (if ci then "gi" else "g")).1
        (cleanPF pattern (if ci then "gi" else "g")).2 = none) :
    (searchTransactions nre rt now st txs pattern ci).2
        = .error "Search failed: Invalid regex pattern" ∧
    (searchTransactions nre rt now st txs pattern ci).1.searchHistory
        = st.searchHistory := by
  have hp : pattern ≠ "" := by
    intro h
    exact hne (by rw [h]; rfl)
  have hcr : (compileRegex nre st pattern (if ci then "gi" else "g")).2 = none := by
    unfold compileRegex
    rw [if_neg hp]
    exact hfail
  simp only [searchTransactions]
  rw [if_neg (by rintro (h | h) <;> [exact hp h; exact hne h])]
  rw [hcr]
  exact ⟨rfl, compileRegex_searchHistory nre st pattern _⟩

open SearchManager in
/-- Witness for C1: the unterminated group `"(abc"` under the
paren-checking engine; the history (one entry) is untouched. -/
theorem searchTransactions_compile_failure_witness :
    (searchTransactions demoCompile demoTest "2025-02-02T00:00:00Z" w1St
        [w1Tx] "(abc" true).2
      = Except.error "Search failed: Invalid regex pattern" ∧
    (searchTransactions demoCompile demoTest "2025-02-02T00:00:00Z" w1St
        [w1Tx] "(abc" true).1.searchHistory = w1St.searchHistory :=
  searchTransactions_compile_failure demoCompile demoTest _ _ _ _ _
    (by decide) (by decide)

namespace SearchManager

/-- A slash-free list has no last-slash position. -/
theorem lastSlashPos_of_not_mem (l : List Char) (h : '/' ∉ l) :
    lastSlashPos l = none := by
  induction l with
  | nil => rfl
  | cons c r ih =>
    simp only [List.mem_cons, not_or] at h
    unfold lastSlashPos
    rw [ih h.2]
    exact if_neg fun hc => h.1 hc.symm

/-- The last slash of `a ++ '/' :: b` with `b` slash-free sits at index
`a.length`. -/
theorem lastSlashPos_append (a b : List Char) (hb : '/' ∉ b) :
    lastSlashPos (a ++ '/' :: b) = some a.length := by
  induction a with
  | nil =>
    rw [List.nil_append]
    unfold lastSlashPos
    rw [lastSlashPos_of_not_mem b hb]
    simp
  | cons c as ih =>
    show lastSlashPos (c :: (as ++ '/' :: b)) = _
    unfold lastSlashPos
    rw [ih]
    rfl

/-- The cleaning step on a self-delimited list `/body/suffix` (suffix
slash-free): the body between the first and last slash is kept, a
non-empty suffix overrides the flags. -/
theorem cleanPFL_slash (body suffix : List Char) (hsuf : '/' ∉ suffix)
    (d : String) :
    cleanPFL ('/' :: (body ++ '/' :: suffix)) d
      = (body, if suffix ≠ [] then String.mk suffix else d) := by
  have hlsp : lastSlashPos ('/' :: (body ++ '/' :: suffix))
      = some (body.length + 1) := by
    have h := lastSlashPos_append ('/' :: body) suffix hsuf
    simpa using h
  have hdrop : List.drop (body.length + 1 + 1) ('/' :: (body ++ '/' :: suffix))
      = suffix := by
    rw [show ('/' :: (body ++ '/' :: suffix))
          = (('/' :: body) ++ ['/']) ++ suffix by simp]
    exact List.drop_left' (by simp)
  have htke : List.drop 1 (List.take (body.length + 1)
      ('/' :: (body ++ '/' :: suffix))) = body := by
    rw [show ('/' :: (body ++ '/' :: suffix))
          = ('/' :: body) ++ ('/' :: suffix) by simp]
    rw [List.take_left' (by simp)]
    rfl
  simp only [cleanPFL, hlsp]
  rw [if_pos ⟨rfl, by simp⟩]
  simp only [Nat.succ_pos, if_true, hdrop]
  rw [← htke]
  simp

end SearchManager

open SearchManager in
/-- C4 amended: the Pattern Compiler first trims the raw string; a
*trimmed* string of the shape `/body/suffix` (with the suffix after the
last slash slash-free) compiles the text strictly between the first and
last slash, a non-empty suffix replacing the default flags; any other
trimmed string is compiled verbatim (as trimmed) with the default flags. -/
theorem cleanPF_spec (p d : String) :
    (∀ body suffix : List Char,
      jsTrimL p.toList = '/' :: body ++ '/' :: suffix → '/' ∉ suffix →
      cleanPF p d = (String.mk body,
        if suffix ≠ [] then String.mk suffix else d)) ∧
    ((jsTrimL p.toList).head? ≠ some '/' → cleanPF p d = (jsTrim p, d)) ∧
    (∀ rest : List Char, jsTrimL p.toList = '/' :: rest → '/' ∉ rest →
      cleanPF p d = (jsTrim p, d)) := by
  refine ⟨?_, ?_, ?_⟩
  · intro body suffix ht hsuf
    have h := cleanPFL_slash body suffix hsuf d
    simp only [cleanPF, ht, h]
    rw [show ('/' :: body ++ '/' :: suffix)
          = ('/' :: (body ++ '/' :: suffix)) from rfl, h]
  · intro hh
    simp only [cleanPF, cleanPFL]
    rw [if_neg fun hc => hh hc.1]
    rfl
  · intro rest ht hrest
    have hlsp : lastSlashPos (jsTrimL p.toList) = some 0 := by
      rw [ht]
      unfold lastSlashPos
      rw [lastSlashPos_of_not_mem rest hrest]
      rfl
    simp only [cleanPF, cleanPFL, hlsp]
    rw [if_pos (by rw [ht]; simp)]
    rfl

open SearchManager in
/-- Counterexample to C4 as stated: the raw string `" a"` does not begin
with `/`, so the claim says it is compiled verbatim — but the compiler
trims it and uses the pattern body `"a"`. -/
theorem cleanPF_not_verbatim :
    (compileRegex demoCompileOk SearchManager.initState " a" "gi").2
        = some () ∧
    (compileRegex demoCompileOk SearchManager.initState " a" "gi").1.lastSearchPattern
        = "a" ∧
    (" a" : String) ≠ "a" :=
  ⟨by decide, by decide, by decide⟩

open SearchManager in
/-- C5 (the failing input): with the literal-text engine, searching for
`"zzz"` over a single transaction whose `amount` is absent makes the whole
search throw — `transaction.amount.toString()` raises a `TypeError` before
the safe `testPattern` is ever reached (the description and category did
not match), and `searchTransactions` surfaces it as a thrown
`Search failed` error instead of treating the absent field as a non-match. -/
theorem searchTransactions_throws_on_absent_amount :
    (searchTransactions litCompile litTest "2025-02-02T00:00:00Z" w1St
        [{ description := .str "Lunch", category := .str "Food",
           amount := none, date := .str "2025-01-01" }] "zzz" true).2
      = Except.error "Search failed: Cannot read properties of undefined" := by
  rfl

open SearchManager in
/-- C3: `addToHistory` keeps the history a most-recently-used list capped
at 10: the result is the front-inserted entry followed by the old history
purged of the exact `(pattern, flags)` duplicate, truncated to its first
10 entries (so the oldest fall off the end); the new entry is at the
front and no duplicate of it survives in the tail.  Moreover no
`searchTransactions` call, successful or not, leaves more than
`max (previous length) 10` entries — in particular from any state within
the cap, the history never exceeds 10 entries however many searches run. -/
theorem addToHistory_mru_cap :
    (∀ (now : String) (st : SearchState) (p f : String),
      ((addToHistory now st p f).searchHistory.length ≤ 10) ∧
      (addToHistory now st p f).searchHistory =
        (mkEntry now p f ::
          st.searchHistory.filter
            (fun e => ¬ (e.pattern = p ∧ e.flags = f))).take 10 ∧
      ((addToHistory now st p f).searchHistory.head? = some (mkEntry now p f)) ∧
      ((addToHistory now st p f).searchHistory.tail.all
          (fun e => !(e.pattern == p && e.flags == f)) = true)) ∧
    (∀ (R : Type) (nre : String → String → Option R) (rt : R → String → Bool)
        (now : String) (st : SearchState) (txs : List STx) (pattern : String)
        (ci : Bool),
      (searchTransactions nre rt now st txs pattern ci).1.searchHistory.length
        ≤ max st.searchHistory.length 10) := by
  have htake : ∀ (now : String) (st : SearchState) (p f : String),
      (addToHistory now st p f).searchHistory =
        (mkEntry now p f ::
          st.searchHistory.filter
            (fun e => ¬ (e.pattern = p ∧ e.flags = f))).take 10 := by
    intro now st p f
    simp only [addToHistory, maxHistorySize]
    split
    · rfl
    · next h => exact (List.take_of_length_le (Nat.le_of_not_lt h)).symm
  refine ⟨fun now st p f => ⟨addToHistory_length_le now st p f, htake now st p f, ?_, ?_⟩, ?_⟩
  · rw [htake now st p f]
    rfl
  · rw [htake now st p f]
    rw [show ((mkEntry now p f ::
        st.searchHistory.filter
          (fun e => ¬ (e.pattern = p ∧ e.flags = f))).take 10).tail =
        (st.searchHistory.filter
          (fun e => ¬ (e.pattern = p ∧ e.flags = f))).take 9 from rfl]
    rw [List.all_eq_true]
    intro x hx
    have hmem := List.mem_of_mem_take hx
    rw [List.mem_filter] at hmem
    have hpred := hmem.2
    simp only [decide_eq_true_eq] at hpred
    simp only [Bool.not_eq_true', Bool.and_eq_false_iff, beq_eq_false_iff_ne, ne_eq]
    tauto
  · intro R nre rt now st txs pattern ci
    simp only [searchTransactions]
    split
    · exact Nat.le_max_left _ _
    · split
      · rw [compileRegex_searchHistory]
        exact Nat.le_max_left _ _
      · split
        · exact Nat.le_trans (addToHistory_length_le _ _ _ _) (Nat.le_max_right _ _)
        · exact Nat.le_trans (addToHistory_length_le _ _ _ _) (Nat.le_max_right _ _)

open SearchManager in
/-- Counterexample to C8 as stated: compiling the invalid pattern
`"(abc"` fails (the engine returns no matcher), yet the recorded
`lastSearchPattern` changes from `"food"` to `"(abc"` — the compiler's
state is *not* left unchanged on error. -/
theorem compileRegex_failure_mutates_state :
    (compileRegex demoCompile w1St "(abc" "gi").2 = none ∧
    (compileRegex demoCompile w1St "(abc" "gi").1.lastSearchPattern = "(abc" ∧
    (compileRegex demoCompile w1St "(abc" "gi").1.lastSearchPattern
      ≠ w1St.lastSearchPattern := by
  refine ⟨by decide, by decide, by decide⟩

open SearchManager in
/-- C8 amended: `compileRegex` records the cleaned pattern and flags
*before* attempting compilation, so they are updated even when compilation
fails; only the empty-input early return leaves the state unchanged. -/
theorem compileRegex_records_before_attempt {R : Type}
    (nre : String → String → Option R) (st : SearchState) (p f : String)
    (hp : p ≠ "")
    (hfail : nre (cleanPF p f).1 (cleanPF p f).2 = none) :
    compileRegex nre st p f =
      ({ st with lastSearchPattern := (cleanPF p f).1,
                 lastSearchFlags := (cleanPF p f).2 }, none) ∧
    compileRegex nre st "" f = (st, none) := by
  constructor
  · simp only [compileRegex, if_neg hp, hfail]
  · rfl

open SearchManager in
/-- Witness for the amended C8 at the failing pattern `"(abc"`. -/
theorem compileRegex_records_before_attempt_witness :
    (compileRegex demoCompile w1St "(abc" "gi" =
      ({ w1St with lastSearchPattern := (cleanPF "(abc" "gi").1,
                   lastSearchFlags := (cleanPF "(abc" "gi").2 }, none) ∧
     compileRegex demoCompile w1St "" "gi" = (w1St, none)) :=
  compileRegex_records_before_attempt demoCompile w1St "(abc" "gi"
    (by decide) (by decide)

namespace SearchManager

/-- A single-character global replace distributes over concatenation. -/
theorem replChar_append (t : Char) (r : List Char) (a b : List Char) :
    replChar t r (a ++ b) = replChar t r a ++ replChar t r b :=
  List.flatMap_append a b _

/-- The escape chain distributes over concatenation. -/
theorem escapeChars_append (a b : List Char) :
    escapeChars (a ++ b) = escapeChars a ++ escapeChars b := by
  simp only [escapeChars, replChar_append]

/-- On a single character the five chained replaces act as the one-step
character escape. -/
theorem escapeChars_singleton (c : Char) : escapeChars [c] = escChar c := by
  by_cases h1 : c = '&'
  · subst h1; decide
  · by_cases h2 : c = '<'
    · subst h2; decide
    · by_cases h3 : c = '>'
      · subst h3; decide
      · by_cases h4 : c = '"'
        · subst h4; decide
        · by_cases h5 : c = apos
          · subst h5; decide
          · simp [escapeChars, replChar, escChar, h1, h2, h3, h4, h5]

/-- The chained replaces equal a characterwise escape map. -/
theorem escapeChars_eq_flatMap (l : List Char) :
    escapeChars l = l.flatMap escChar := by
  induction l with
  | nil => rfl
  | cons c r ih =>
    rw [show (c :: r) = [c] ++ r from rfl, escapeChars_append,
      escapeChars_singleton, ih, List.flatMap_append]
    simp

/-- Each character's escape is free of `<`, `>`, `"`, `'`. -/
theorem escChar_tame (c : Char) : (escChar c).all tameChar = true := by
  unfold escChar
  split_ifs with h1 h2 h3 h4 h5
  · decide
  · decide
  · decide
  · decide
  · decide
  · simp [tameChar, h2, h3, h4, h5]

/-- Escaped text is free of `<`, `>`, `"`, `'`. -/
theorem escapeChars_tame (l : List Char) :
    (escapeChars l).all tameChar = true := by
  rw [escapeChars_eq_flatMap, List.all_eq_true]
  intro x hx
  rw [List.mem_flatMap] at hx
  obtain ⟨c, _, hxc⟩ := hx
  have h := escChar_tame c
  rw [List.all_eq_true] at h
  exact h x hxc

/-- Every segment of a matcher's decomposition of tame text is tame: its
characters all come from the input (by `joins`). -/
theorem decompose_segments_tame (m : Matcher) (l : List Char)
    (hl : l.all tameChar = true) :
    ∀ p ∈ m.decompose l, p.2.all tameChar = true := by
  intro p hp
  rw [List.all_eq_true] at hl ⊢
  intro c hc
  apply hl
  rw [← m.joins l, List.mem_flatten]
  exact ⟨p.2, List.mem_map_of_mem Prod.snd hp, hc⟩

/-- Rendering the pieces of a decomposition is the wrapped replacement. -/
theorem renderPieces_toPieces (d : List (Bool × List Char)) :
    renderPieces (toPieces d) = wrapDecomp d := by
  induction d with
  | nil => rfl
  | cons a d ih =>
    obtain ⟨b, seg⟩ := a
    cases b <;>
      simp [toPieces, renderPieces, wrapDecomp, List.flatMap_cons] at ih ⊢ <;>
      simp [ih]

/-- A plain piece of `toPieces d` carries one of `d`'s segments. -/
theorem toPieces_plain (d : List (Bool × List Char)) (seg : List Char)
    (h : HPiece.plain seg ∈ toPieces d) : ∃ p ∈ d, p.2 = seg := by
  rw [toPieces, List.mem_flatMap] at h
  obtain ⟨p, hp, hmem⟩ := h
  refine ⟨p, hp, ?_⟩
  by_cases hb : p.1 <;> simp [hb] at hmem <;> exact hmem.symm

end SearchManager

open SearchManager in
/-- C6 amended: `highlightMatches` escapes the text before the matcher's
replace-and-wrap step, so for every text and matcher the output is
well-marked — it splits into literal `<mark>`/`</mark>` tags and runs free
of `<`, `>`, `"`, `'` (so no such character from the source text survives
unescaped); when no matcher is supplied, or the text is not a string, the
escaped text is returned unchanged.  (The analogous guarantee for `&` — an
output `&` always beginning a complete entity — fails: a matcher can match
inside an escape entity and split it; see the counterexample.) -/
theorem highlightMatches_wellMarked (s : String) (m : Matcher) :
    WellMarked (highlightMatches (.str s) (some m)).toList ∧
    (∀ t : JsField, highlightMatches t none = escapeHtml t) ∧
    (∀ m2 : Matcher, highlightMatches .nonstr (some m2) = escapeHtml .nonstr) := by
  refine ⟨?_, fun t => by cases t <;> rfl, fun m2 => rfl⟩
  by_cases hs : s = ""
  · subst hs
    exact ⟨[], by simp, rfl⟩
  · simp only [highlightMatches, if_neg hs]
    refine ⟨toPieces (m.decompose (escapeChars s.toList)), ?_, ?_⟩
    · intro p hp seg hseg
      subst hseg
      obtain ⟨q, hq, hqs⟩ := toPieces_plain _ _ hp
      subst hqs
      exact decompose_segments_tame m _ (escapeChars_tame _) q hq
    · show String.toList (String.mk (wrapDecomp _)) = _
      rw [renderPieces_toPieces]
      rfl

open SearchManager in
/-- Counterexample to C6 as stated: highlighting the source text `"&"`
with the action of the regex `/amp/g` yields `&<mark>amp</mark>;` — the
matcher matched inside the `&amp;` entity and split it, so the output
contains an `&` (from the source text) that no longer begins a complete
escape entity, although plain escaping had produced a fully entity-escaped
string. -/
theorem highlightMatches_splits_amp_entity :
    highlightMatches (.str "&") (some ampM) = "&<mark>amp</mark>;" ∧
    ampEscaped (highlightMatches (.str "&") (some ampM)).toList = false ∧
    ampEscaped (escapeHtml (.str "&")).toList = true := by
  refine ⟨rfl, by decide, by decide⟩

namespace ValidationManager

/-- Acceptance of the shared string path is exactly: grammar match, value
strictly positive, value strictly below 1,000,000 — and on acceptance the
parsed value (in cents) is returned. -/
theorem validateAmountStr_accepted (s : String) (b : Bool) :
    ((validateAmountStr s b).accepted
      = (amountGrammar s && decide (0 < centsOf s)
          && decide (centsOf s < 100000000))) ∧
    ((validateAmountStr s b).accepted = true →
        validateAmountStr s b = .ok (centsOf s)) := by
  unfold validateAmountStr
  split_ifs with h0 hg hz hl
  · obtain ⟨_, hs⟩ := h0
    subst hs
    exact ⟨by decide, by simp [AmtResult.accepted]⟩
  · constructor
    · simp only [AmtResult.accepted, hg, Bool.true_and]
      rw [hz]
      rfl
    · simp [AmtResult.accepted]
  · constructor
    · have hd : decide (centsOf s < 100000000) = false :=
        decide_eq_false (Nat.not_lt.mpr hl)
      simp [AmtResult.accepted, hg, hd]
    · simp [AmtResult.accepted]
  · have h1 : 0 < centsOf s := Nat.pos_of_ne_zero hz
    have h2 : centsOf s < 100000000 := Nat.lt_of_not_le hl
    exact ⟨by simp [AmtResult.accepted, hg, h1, h2], fun _ => rfl⟩
  · simp [AmtResult.accepted, hg]

end ValidationManager

open ValidationManager in
/-- C7 amended: `validateAmount` accepts exactly the strings matching the
amount grammar whose value is strictly positive and strictly below
1,000,000 (for both string and number arguments), returning the parsed
value; but the literal inputs `"0"` and `"0.00"` do not match the grammar
at all, so they are rejected with the *malformed* reason — not the
distinct 'too small' reason. -/
theorem validateAmount_grammar_bounds (s : String) :
    ((validateAmount (.vstr s)).accepted
      = (amountGrammar s && decide (0 < centsOf s)
          && decide (centsOf s < 100000000))) ∧
    ((validateAmount (.vstr s)).accepted = true →
        validateAmount (.vstr s) = .ok (centsOf s)) ∧
    ((validateAmount (.vnum s)).accepted
      = (amountGrammar s && decide (0 < centsOf s)
          && decide (centsOf s < 100000000))) ∧
    ((validateAmount (.vnum s)).accepted = true →
        validateAmount (.vnum s) = .ok (centsOf s)) ∧
    validateAmount (.vstr "0") = .errInvalid ∧
    validateAmount (.vstr "0.00") = .errInvalid ∧
    AmtResult.errInvalid ≠ AmtResult.errTooSmall :=
  ⟨(validateAmountStr_accepted s true).1, (validateAmountStr_accepted s true).2,
   (validateAmountStr_accepted s false).1, (validateAmountStr_accepted s false).2,
   by decide, by decide, by decide⟩

open ValidationManager in
/-- Counterexample to C7 as stated: `"0"` and `"0.00"` fail the amount
regex itself, so `validateAmount` reports them as malformed
(`errorMessages.amount.invalid`), never reaching the 'too small' branch. -/
theorem validateAmount_zero_is_malformed :
    validateAmount (.vstr "0") = .errInvalid ∧
    validateAmount (.vstr "0.00") = .errInvalid ∧
    validateAmount (.vstr "0") ≠ .errTooSmall ∧
    validateAmount (.vstr "0.00") ≠ .errTooSmall := by
  decide

namespace StateManager

/-- `findIdx?` returning `some i` exhibits an element at `i` satisfying the
predicate. -/
theorem findIdx?_spec {α : Type} (p : α → Bool) (l : List α) (i : Nat)
    (h : l.findIdx? p = some i) : ∃ t, l[i]? = some t ∧ p t = true := by
  induction l generalizing i with
  | nil => simp [List.findIdx?] at h
  | cons a as ih =>
    rw [List.findIdx?_cons] at h
    by_cases hp : p a
    · simp [hp] at h
      subst h
      simp [hp]
    · simp [hp] at h
      obtain ⟨j, hj, hji⟩ := h
      subst hji
      simpa using ih j hj

end StateManager

open StateManager in
/-- C9: when `updateTransaction` succeeds, the stored transaction keeps its
`id` and `createdAt` (even though the update object supplied replacements
for them), `updatedAt` is refreshed to the current instant, and every other
position of the working set is untouched. -/
theorem updateTransaction_frame (validDate : String → Bool) (now : String)
    (st : StateSt) (tid : String) (u : TxUpdates)
    (hok : (updateTransaction validDate now st tid u).2 = true) :
    ∃ i t, st.transactions[i]? = some t ∧ t.id = tid ∧
      (updateTransaction validDate now st tid u).1.transactions
        = st.transactions.set i (applyUpdates now t u) ∧
      (applyUpdates now t u).id = t.id ∧
      (applyUpdates now t u).createdAt = t.createdAt ∧
      (applyUpdates now t u).updatedAt = now ∧
      (∀ j : ℕ, j ≠ i →
        (updateTransaction validDate now st tid u).1.transactions[j]?
          = st.transactions[j]?) := by
  unfold updateTransaction at hok ⊢
  split at hok
  next hidx => exact absurd hok (by simp)
  next i hidx =>
    split at hok
    next hget => exact absurd hok (by simp)
    next t hget =>
      obtain ⟨t2, hget2, hpt2⟩ := findIdx?_spec _ _ _ hidx
      rw [hget] at hget2
      obtain rfl : t = t2 := by injection hget2
      by_cases hv : validTx validDate (applyUpdates now t u)
      · simp only [hv, if_true]
        refine ⟨i, t, hget, by simpa using hpt2, rfl, rfl, rfl, rfl, ?_⟩
        intro j hj
        exact List.getElem?_set_ne (Ne.symm hj)
      · rw [if_neg (by simp [hv])] at hok
        simp at hok

open StateManager in
/-- Witness for C9: updating the stored transaction `"a"` with an update
object that tries to overwrite `id` and `createdAt`. -/
theorem updateTransaction_frame_witness :
    ∃ i t, stW.transactions[i]? = some t ∧ t.id = "a" ∧
      (updateTransaction vdAll "T2" stW "a" uW).1.transactions
        = stW.transactions.set i (applyUpdates "T2" t uW) ∧
      (applyUpdates "T2" t uW).id = t.id ∧
      (applyUpdates "T2" t uW).createdAt = t.createdAt ∧
      (applyUpdates "T2" t uW).updatedAt = "T2" ∧
      (∀ j : ℕ, j ≠ i →
        (updateTransaction vdAll "T2" stW "a" uW).1.transactions[j]?
          = stW.transactions[j]?) :=
  updateTransaction_frame vdAll "T2" stW "a" uW (by decide)

open StateManager in
/-- C10: `setBudgetCap 0` succeeds (0 is a non-negative number) and
`getBudgetCap` then returns 0, yet `calculateStatistics` produces a `null`
budget summary whenever the cap is 0 — the truthiness test at
state.js:371 treats a zero cap exactly like an absent one. -/
theorem setBudgetCap_zero_disables_budget (st : StateSt)
    (parseDate : String → ℤ) (ck : Clock) (optTxs : Option (List Tx)) :
    setBudgetCap (some 0) st = Except.ok { st with budgetCap := some (0 : ℚ) } ∧
    getBudgetCap { st with budgetCap := some (0 : ℚ) } = some 0 ∧
    (calculateStatistics parseDate ck optTxs
        { st with budgetCap := some (0 : ℚ) }).budget = none := by
  refine ⟨?_, rfl, ?_⟩
  · simp [setBudgetCap]
  · simp [calculateStatistics, truthyNum]
